import Mathlib

/-!
Shallow embedding of the Trade Tracker application (`src/app.py`).

Numeric values are modelled as rationals (`ℚ`); the Python source uses
floats, but every claim under audit is about the exact arithmetic of the
formulas, which the rational model captures.
-/

namespace TradeTracker

/-- Tag/colour classification, the closed set offered by the selectbox at
`app.py` lines 70-73: `["default", "red", "blue"]`. -/
inductive Color where
  | default
  | red
  | blue
deriving DecidableEq, Repr

/-- The per-trade user inputs collected by the form (`app.py` lines 55-73):
buy price, sell price, market fee percentage, and colour tag. -/
structure TradeInput where
  buy : ℚ
  sell : ℚ
  fee : ℚ
  color : Color
deriving DecidableEq, Repr

/-- Default widget values used when no previous trade pre-fills an index
(`app.py` lines 55-73: `value=0.0` for the numbers, first option for the
colour). -/
def defaultInput : TradeInput := ⟨0, 0, 0, Color.default⟩

/-- Per-trade profit, `app.py` line 76:
`profit = (sell_price - buy_price) - (sell_price * fee / 100)`. -/
def profit (t : TradeInput) : ℚ := (t.sell - t.buy) - t.sell * t.fee / 100

/-- Per-trade ROI, `app.py` line 77:
`roi = (profit / buy_price * 100) if buy_price > 0 else 0`. -/
def roi (t : TradeInput) : ℚ := if t.buy > 0 then profit t / t.buy * 100 else 0

/-- Per-trade total return, `app.py` line 78:
`total_return = sell_price - (sell_price * fee / 100)`. -/
def total_return (t : TradeInput) : ℚ := t.sell - t.sell * t.fee / 100

/-- One entry of the `trades` list, the dict appended at `app.py`
lines 83-92 (keys `Trade`, `Buy`, `Sell`, `Fee (%)`, `Profit`, `ROI (%)`,
`Total Return`, `Color`). -/
structure TradeRecord where
  trade : ℕ
  buy : ℚ
  sell : ℚ
  fee : ℚ
  profit : ℚ
  roi : ℚ
  total_return : ℚ
  color : Color
deriving DecidableEq, Repr

/-- The record the loop body at `app.py` lines 83-92 appends for index `i`. -/
def mkRecord (i : ℕ) (t : TradeInput) : TradeRecord :=
  { trade := i
    buy := t.buy
    sell := t.sell
    fee := t.fee
    profit := profit t
    roi := roi t
    total_return := total_return t
    color := t.color }

/-- Records for the inputs of indices `s, s+1, s+2, ...` in ascending index
order. -/
def ascRecordsFrom (s : ℕ) : List TradeInput → List TradeRecord
  | [] => []
  | t :: ts => mkRecord s t :: ascRecordsFrom (s + 1) ts

/-- Records for a list of inputs (position `k` of `inputs` holds the inputs
of trade index `k + 1`) in ascending index order `1, 2, ..., N`. -/
def ascRecords (inputs : List TradeInput) : List TradeRecord :=
  ascRecordsFrom 1 inputs

/-- The `trades` list built by the input loop at `app.py` lines 49-92: the
loop runs `for i in reversed(range(1, num_trades + 1))`, i.e. appends the
record of index `N` first and the record of index `1` last, so the stored
list is the ascending-order record list reversed. -/
def buildTrades (inputs : List TradeInput) : List TradeRecord :=
  (ascRecords inputs).reverse

/-- State of the portfolio fold at `app.py` lines 102-105.  The `seeded`
field is the source's `initialized` flag. -/
structure FoldState where
  portfolio_value : ℚ
  prev_portfolio : ℚ
  total_added_capital : ℚ
  seeded : Bool
deriving DecidableEq, Repr

/-- Initial fold state, `app.py` lines 102-105: all accumulators `0.0`,
flag `False`. -/
def initState : FoldState := ⟨0, 0, 0, false⟩

/-- Net result of one trade inside the fold, `app.py` line 111:
`net_result = (sell - buy) - (sell * fee / 100)`. -/
def net_result (t : TradeRecord) : ℚ := (t.sell - t.buy) - t.sell * t.fee / 100

/-- One iteration of the portfolio fold, `app.py` lines 107-124.  The
iteration ends with `prev_portfolio = portfolio_value` (line 124), so both
fields leave each step equal. -/
def foldStep (s : FoldState) (t : TradeRecord) : FoldState :=
  let nr := net_result t
  if s.seeded = false then
    { portfolio_value := t.buy + nr
      prev_portfolio := t.buy + nr
      total_added_capital := s.total_added_capital
      seeded := true }
  else
    let added := if t.buy > s.prev_portfolio then t.buy - s.prev_portfolio else 0
    let pv := s.prev_portfolio - t.buy + nr + added
    { portfolio_value := pv
      prev_portfolio := pv
      total_added_capital := s.total_added_capital + added
      seeded := true }

/-- The whole portfolio fold, `app.py` line 107: `for t in reversed(trades)`
over the stored `trades` list. -/
def runFold (trades : List TradeRecord) : FoldState :=
  trades.reverse.foldl foldStep initState

/-- The fold state the app reaches from the raw inputs: build the `trades`
list, then run the portfolio fold. -/
def engineFold (inputs : List TradeInput) : FoldState :=
  runFold (buildTrades inputs)

/-- Final `portfolio_value` of the fold (`app.py` lines 115/123). -/
def portfolio_value (trades : List TradeRecord) : ℚ :=
  (runFold trades).portfolio_value

/-- Final `total_added_capital` of the fold (`app.py` line 120). -/
def total_added_capital (trades : List TradeRecord) : ℚ :=
  (runFold trades).total_added_capital

/-- `total_profit`, accumulated over every record by `app.py` line 80. -/
def total_profit (trades : List TradeRecord) : ℚ :=
  (trades.map (fun t => t.profit)).sum

/-- `total_investment`, accumulated over every record by `app.py` line 81. -/
def total_investment (trades : List TradeRecord) : ℚ :=
  (trades.map (fun t => t.buy)).sum

/-- `trades[-1]["Buy"] if trades else 0` from `app.py` line 126: the buy
price of the LAST element of the stored list. -/
def lastBuy (trades : List TradeRecord) : ℚ :=
  match trades.getLast? with
  | some t => t.buy
  | none => 0

/-- `effective_invested`, `app.py` line 126. -/
def effective_invested (trades : List TradeRecord) : ℚ :=
  lastBuy trades + total_added_capital trades

/-- `total_roi`, `app.py` line 127:
`((portfolio_value / effective_invested) - 1) * 100 if effective_invested > 0 else 0`. -/
def total_roi (trades : List TradeRecord) : ℚ :=
  if effective_invested trades > 0 then
    (portfolio_value trades / effective_invested trades - 1) * 100
  else 0

/-- Modelled from the spec's words for claim C1: the fold as the spec
describes it, processing records from the HIGHEST index down to index 1
(the most recent trade seeds the fold). -/
def descendingFold_spec (inputs : List TradeInput) : FoldState :=
  ((ascRecords inputs).reverse).foldl foldStep initState

/-- Modelled from the spec's words for claim C3: total ROI computed with
`effectiveInvested = lastTrade.buyPrice + totalAddedCapital` where
`lastTrade` is the trade with the HIGHEST index (last in chronological
order). -/
def total_roi_highest_spec (inputs : List TradeInput) : ℚ :=
  let effInv := (match inputs.getLast? with
    | some t => t.buy
    | none => 0) + total_added_capital (buildTrades inputs)
  if effInv > 0 then
    (portfolio_value (buildTrades inputs) / effInv - 1) * 100
  else 0

/-- The concrete two-trade scenario of the spec's test list: trade #1 has
buy 200, sell 0, fee 0; trade #2 has buy 100, sell 150, fee 0 (ascending
index order). -/
def ex2Inputs : List TradeInput :=
  [⟨200, 0, 0, Color.default⟩, ⟨100, 150, 0, Color.default⟩]

/-- Colour filtering for the split view, `app.py` lines 192-193:
`df[df["Color"] == c]` keeps the rows whose colour equals `c` in stored
order. -/
def filterColor (c : Color) (trades : List TradeRecord) : List TradeRecord :=
  trades.filter (fun t => decide (t.color = c))

/-- Running (prefix) sums with accumulator `acc`: models pandas `cumsum`. -/
def cumsumFrom (acc : ℚ) : List ℚ → List ℚ
  | [] => []
  | x :: xs => (acc + x) :: cumsumFrom (acc + x) xs

/-- Pandas `Series.cumsum` over a column, used at `app.py` line 180. -/
def cumsum (l : List ℚ) : List ℚ := cumsumFrom 0 l

/-- Insert a record into a list already sorted by ascending `Trade` index. -/
def insertByTrade (t : TradeRecord) : List TradeRecord → List TradeRecord
  | [] => [t]
  | u :: us => if t.trade ≤ u.trade then t :: u :: us else u :: insertByTrade t us

/-- `df.sort_values(by="Trade", ascending=True)` (`app.py` lines 162/179),
modelled as insertion sort on the `Trade` index. -/
def sortByTrade : List TradeRecord → List TradeRecord
  | [] => []
  | t :: ts => insertByTrade t (sortByTrade ts)

/-- The "Portfolio Value Growth" column of `show_charts`, `app.py`
line 180: `chart_df["Buy"].cumsum() + chart_df["Profit"].cumsum()`. -/
def portfolio_growth (df : List TradeRecord) : List ℚ :=
  List.zipWith (· + ·) (cumsum (df.map (fun t => t.buy)))
    (cumsum (df.map (fun t => t.profit)))

/-- The charted series for a subset: `show_charts` first re-sorts the
subset ascending by `Trade` (`app.py` line 179) and then takes the
cumulative column (line 180). -/
def chartSeries (subset : List TradeRecord) : List ℚ :=
  portfolio_growth (sortByTrade subset)

/-! JSON model for the snapshot file.  `json.dumps` at `app.py` line 138
writes the `trades` list of dicts; `json.load` at line 14 parses an
uploaded file back into such data.  Python ints and floats are kept as
separate constructors, as `json` round-trips them distinctly. -/

/-- Parsed JSON values. -/
inductive JValue where
  | jnull
  | jbool (b : Bool)
  | jint (n : ℤ)
  | jnum (q : ℚ)
  | jstr (s : String)
  | jarr (xs : List JValue)
  | jobj (fields : List (String × JValue))

/-- Dict lookup: first field with the given key, if any. -/
def jlookup (fields : List (String × JValue)) (k : String) : Option JValue :=
  (fields.find? (fun p => p.1 == k)).map (fun p => p.2)

/-- String rendering of a colour, as stored in the snapshot dicts. -/
def encodeColor : Color → String
  | Color.default => "default"
  | Color.red => "red"
  | Color.blue => "blue"

/-- Colour from its snapshot string, the closed set accepted by the
selectbox options lookup at `app.py` line 72. -/
def parseColor (s : String) : Option Color :=
  if s = "default" then some Color.default
  else if s = "red" then some Color.red
  else if s = "blue" then some Color.blue
  else none

/-- JSON object for one trade dict, the shape `json.dumps` writes for an
entry appended at `app.py` lines 83-92. -/
def encodeRecord (t : TradeRecord) : JValue :=
  JValue.jobj
    [("Trade", JValue.jint t.trade),
     ("Buy", JValue.jnum t.buy),
     ("Sell", JValue.jnum t.sell),
     ("Fee (%)", JValue.jnum t.fee),
     ("Profit", JValue.jnum t.profit),
     ("ROI (%)", JValue.jnum t.roi),
     ("Total Return", JValue.jnum t.total_return),
     ("Color", JValue.jstr (encodeColor t.color))]

/-- JSON array for the whole `trades` list, as saved by `app.py` line 138. -/
def encodeTrades (trades : List TradeRecord) : JValue :=
  JValue.jarr (trades.map encodeRecord)

/-- Numeric JSON value read back as a rational. -/
def decodeQ : JValue → Option ℚ
  | JValue.jnum q => some q
  | JValue.jint n => some (n : ℚ)
  | _ => none

/-- JSON value read back as a (non-negative) trade index. -/
def decodeIndex : JValue → Option ℕ
  | JValue.jint n => if 0 ≤ n then some n.toNat else none
  | _ => none

/-- JSON string read back as a colour. -/
def decodeColor : JValue → Option Color
  | JValue.jstr s => parseColor s
  | _ => none

/-- One snapshot entry read back into a trade record; fails when a field
is missing or has the wrong shape.  These are exactly the keys the app
reads back (`Trade` at line 50, `Buy`/`Sell`/`Fee (%)`/`Color` at
lines 57-72) plus the derived columns the snapshot also carries. -/
def decodeEntry : JValue → Option TradeRecord
  | JValue.jobj fs =>
    match (jlookup fs "Trade").bind decodeIndex,
          (jlookup fs "Buy").bind decodeQ,
          (jlookup fs "Sell").bind decodeQ,
          (jlookup fs "Fee (%)").bind decodeQ,
          (jlookup fs "Profit").bind decodeQ,
          (jlookup fs "ROI (%)").bind decodeQ,
          (jlookup fs "Total Return").bind decodeQ,
          (jlookup fs "Color").bind decodeColor with
    | some i, some b, some s, some f, some p, some r, some tr, some c =>
      some ⟨i, b, s, f, p, r, tr, c⟩
    | _, _, _, _, _, _, _, _ => none
  | _ => none

/-- Snapshot entries read back one by one; fails as soon as one entry
fails. -/
def decodeList : List JValue → Option (List TradeRecord)
  | [] => some []
  | v :: vs =>
    match decodeEntry v, decodeList vs with
    | some t, some ts => some (t :: ts)
    | _, _ => none

/-- A whole snapshot read back into a trade-record list. -/
def decodeTrades : JValue → Option (List TradeRecord)
  | JValue.jarr xs => decodeList xs
  | _ => none

/-- Does a snapshot entry carry every key the pre-fill loop reads
(`t["Trade"]` at `app.py` line 50, `prev["Buy"]`, `prev["Sell"]`,
`prev["Fee (%)"]`, `prev["Color"]` at lines 57-72)? -/
def entryWellFormed : JValue → Bool
  | JValue.jobj fs =>
    (jlookup fs "Trade").isSome && (jlookup fs "Buy").isSome &&
      (jlookup fs "Sell").isSome && (jlookup fs "Fee (%)").isSome &&
      (jlookup fs "Color").isSome
  | _ => false

/-- Is a parsed snapshot an array whose entries all carry the required
keys? -/
def snapshotWellFormed : JValue → Bool
  | JValue.jarr xs => xs.all entryWellFormed
  | _ => false

/-- The session state the loader touches: `st.session_state["loaded_trades"]`
(raw parsed JSON, `app.py` line 15) and `st.session_state["trades"]`
(line 95). -/
structure SessionState where
  loaded_trades : Option JValue
  trades : List TradeRecord

/-- The `load_trades` helper, `app.py` lines 12-18.  `json.load` either
returns a parsed value or raises; the argument `parsed` is `none` exactly
when parsing raised.  On success the raw data is stored and a success
message shown (`true`); on failure an error message is shown (`false`)
and nothing is stored. -/
def load_trades (st : SessionState) (parsed : Option JValue) :
    SessionState × Bool :=
  match parsed with
  | some data => ({ st with loaded_trades := some data }, true)
  | none => (st, false)

/-- `next((t for t in prev_trades if t["Trade"] == i), None)`, `app.py`
line 50: first previous record whose `Trade` index is `i`. -/
def findTrade (prev : List TradeRecord) (i : ℕ) : Option TradeRecord :=
  prev.find? (fun t => t.trade == i)

/-- The inputs the form widgets take for index `i` when `prev_trades` is
available: the matching record's `Buy`/`Sell`/`Fee (%)`/`Color` fields
(`app.py` lines 55-73), or the widget defaults when no record matches. -/
def prefillInput (prev : List TradeRecord) (i : ℕ) : TradeInput :=
  match findTrade prev i with
  | some t => ⟨t.buy, t.sell, t.fee, t.color⟩
  | none => defaultInput

/-- The input list (ascending index order) the app reconstructs after a
load: `num_trades = len(prev_trades)` (`app.py` line 33) and each index
`1 ≤ i ≤ num_trades` is pre-filled from the record with `Trade == i`. -/
def reload (prev : List TradeRecord) : List TradeInput :=
  (List.range' 1 prev.length).map (prefillInput prev)

/-! Helper lemmas. -/

/-- The `Trade` indices of the ascending record list starting at `s` are
`s, s+1, ...`. -/
theorem ascRecordsFrom_map_trade (s : ℕ) (l : List TradeInput) :
    (ascRecordsFrom s l).map (fun r => r.trade) = List.range' s l.length := by
  induction l generalizing s with
  | nil => rfl
  | cons t ts ih => simp [ascRecordsFrom, mkRecord, List.range'_succ, ih]

/-- The last element of the stored `trades` list is the record of index 1,
so `trades[-1]["Buy"]` is the FIRST trade's buy price. -/
theorem lastBuy_buildTrades_cons (t : TradeInput) (ts : List TradeInput) :
    lastBuy (buildTrades (t :: ts)) = t.buy := by
  unfold lastBuy
  rw [buildTrades]
  simp [ascRecords, ascRecordsFrom, mkRecord]

/-- Pointwise description of the "Portfolio Value Growth" running sums,
with explicit accumulators. -/
theorem cumsum_zip_getD (df : List TradeRecord) :
    ∀ (a b : ℚ) (k : ℕ), k < df.length →
      (List.zipWith (· + ·) (cumsumFrom a (df.map (fun t => t.buy)))
          (cumsumFrom b (df.map (fun t => t.profit)))).getD k 0 =
        (a + b) + ((df.take (k + 1)).map (fun t => t.buy + t.profit)).sum := by
  induction df with
  | nil => intro a b k h; simp at h
  | cons t ts ih =>
    intro a b k h
    cases k with
    | zero => simp [cumsumFrom]; ring
    | succ k =>
      have hk : k < ts.length := by simpa using h
      simp only [List.map_cons, cumsumFrom, List.zipWith_cons_cons, List.getD_cons_succ,
        List.take_succ_cons, List.sum_cons]
      rw [ih (a + t.buy) (b + t.profit) k hk]
      ring

/-- Membership in an insertion-sorted list. -/
theorem mem_insertByTrade {x t : TradeRecord} {l : List TradeRecord} :
    x ∈ insertByTrade t l ↔ x = t ∨ x ∈ l := by
  induction l with
  | nil => simp [insertByTrade]
  | cons u us ih =>
    by_cases h : t.trade ≤ u.trade
    · simp [insertByTrade, h]
    · simp [insertByTrade, h, ih]
      tauto

/-- Insertion keeps the list sorted by ascending `Trade` index. -/
theorem pairwise_insertByTrade {t : TradeRecord} {l : List TradeRecord}
    (hl : List.Pairwise (fun a b => a.trade ≤ b.trade) l) :
    List.Pairwise (fun a b => a.trade ≤ b.trade) (insertByTrade t l) := by
  induction l with
  | nil => simp [insertByTrade]
  | cons u us ih =>
    rcases List.pairwise_cons.mp hl with ⟨hu, hus⟩
    by_cases h : t.trade ≤ u.trade
    · rw [insertByTrade, if_pos h]
      refine List.pairwise_cons.mpr ⟨?_, hl⟩
      intro b hb
      rcases List.mem_cons.mp hb with rfl | hb
      · exact h
      · exact le_trans h (hu b hb)
    · rw [insertByTrade, if_neg h]
      refine List.pairwise_cons.mpr ⟨?_, ih hus⟩
      intro b hb
      rcases mem_insertByTrade.mp hb with rfl | hb
      · omega
      · exact hu b hb

/-- The sort output is sorted by ascending `Trade` index. -/
theorem sorted_sortByTrade (l : List TradeRecord) :
    List.Pairwise (fun a b => a.trade ≤ b.trade) (sortByTrade l) := by
  induction l with
  | nil => simp [sortByTrade]
  | cons t ts ih => exact pairwise_insertByTrade ih

/-- Insertion produces a permutation of consing. -/
theorem perm_insertByTrade (t : TradeRecord) (l : List TradeRecord) :
    (insertByTrade t l).Perm (t :: l) := by
  induction l with
  | nil => rfl
  | cons u us ih =>
    by_cases h : t.trade ≤ u.trade
    · rw [insertByTrade, if_pos h]
    · rw [insertByTrade, if_neg h]
      exact (List.Perm.cons u ih).trans (List.Perm.swap t u us)

/-- The sort output is a permutation of its input. -/
theorem perm_sortByTrade (l : List TradeRecord) : (sortByTrade l).Perm l := by
  induction l with
  | nil => rfl
  | cons t ts ih =>
    exact (perm_insertByTrade t (sortByTrade ts)).trans (List.Perm.cons t ih)

/-- Decoding inverts encoding on one snapshot entry. -/
theorem decodeEntry_encodeRecord (t : TradeRecord) :
    decodeEntry (encodeRecord t) = some t := by
  rcases t with ⟨i, b, s, f, p, r, tr, c⟩
  cases c <;>
    simp [decodeEntry, encodeRecord, jlookup, List.find?, decodeIndex, decodeQ,
      decodeColor, encodeColor, parseColor, Int.natCast_nonneg]

/-- Decoding inverts encoding on a list of snapshot entries. -/
theorem decodeList_encode (l : List TradeRecord) :
    decodeList (l.map encodeRecord) = some l := by
  induction l with
  | nil => rfl
  | cons t ts ih => simp [decodeList, decodeEntry_encodeRecord, ih]

/-- Building records preserves the length. -/
theorem length_ascRecordsFrom (l : List TradeInput) :
    ∀ s, (ascRecordsFrom s l).length = l.length := by
  induction l with
  | nil => intro s; rfl
  | cons t ts ih => intro s; simp [ascRecordsFrom, ih]

/-- Every record in the ascending build is the record made from the input
at its own index; indices stay in the window `[s, s + length)`. -/
theorem mem_ascRecordsFrom {l : List TradeInput} :
    ∀ {s : ℕ} {r : TradeRecord}, r ∈ ascRecordsFrom s l →
      s ≤ r.trade ∧ r.trade < s + l.length ∧
        r = mkRecord r.trade (l.getD (r.trade - s) defaultInput) := by
  induction l with
  | nil => intro s r h; simp [ascRecordsFrom] at h
  | cons t ts ih =>
    intro s r h
    rcases List.mem_cons.mp h with rfl | h
    · refine ⟨le_of_eq rfl, ?_, ?_⟩
      · simp [mkRecord]
      · simp [mkRecord]
    · obtain ⟨h1, h2, h3⟩ := ih h
      refine ⟨by omega, by simp; omega, ?_⟩
      have hx : r.trade - s = (r.trade - (s + 1)) + 1 := by omega
      rw [hx, List.getD_cons_succ]
      exact h3

/-- The record of each in-range index occurs in the ascending build. -/
theorem mkRecord_getD_mem :
    ∀ (l : List TradeInput) (s k : ℕ), k < l.length →
      mkRecord (s + k) (l.getD k defaultInput) ∈ ascRecordsFrom s l := by
  intro l
  induction l with
  | nil => intro s k h; simp at h
  | cons t ts ih =>
    intro s k h
    cases k with
    | zero => simp [ascRecordsFrom]
    | succ k =>
      have hk : k < ts.length := by simpa using h
      have hs : s + (k + 1) = (s + 1) + k := by omega
      rw [hs, List.getD_cons_succ]
      exact List.mem_cons_of_mem _ (ih (s + 1) k hk)

/-- Looking up index `i` in the stored `trades` list finds exactly the
record built from input `i` (indices are unique, so position in the
stored list is irrelevant). -/
theorem findTrade_buildTrades (inputs : List TradeInput) (i : ℕ)
    (h1 : 1 ≤ i) (h2 : i ≤ inputs.length) :
    findTrade (buildTrades inputs) i =
      some (mkRecord i (inputs.getD (i - 1) defaultInput)) := by
  unfold findTrade buildTrades
  have hmem : mkRecord i (inputs.getD (i - 1) defaultInput) ∈ (ascRecords inputs).reverse := by
    rw [List.mem_reverse]
    have h := mkRecord_getD_mem inputs 1 (i - 1) (by omega)
    have hi : 1 + (i - 1) = i := by omega
    rw [hi] at h
    exact h
  cases hf : ((ascRecords inputs).reverse).find? (fun t => t.trade == i) with
  | none =>
    exfalso
    have hnone := List.find?_eq_none.mp hf _ hmem
    apply hnone
    simp [mkRecord]
  | some a =>
    have hpa := List.find?_some hf
    have hamem : a ∈ (ascRecords inputs).reverse := List.mem_of_find?_eq_some hf
    have hai : a.trade = i := by simpa using hpa
    rw [List.mem_reverse] at hamem
    obtain ⟨hb1, hb2, hb3⟩ := mem_ascRecordsFrom (l := inputs) (s := 1) hamem
    rw [hb3, hai]

/-- Pre-filling index `k + 1` from the stored list recovers input `k`. -/
theorem prefillInput_buildTrades (inputs : List TradeInput) (k : ℕ)
    (hk : k < inputs.length) :
    prefillInput (buildTrades inputs) (k + 1) = inputs.getD k defaultInput := by
  unfold prefillInput
  rw [findTrade_buildTrades inputs (k + 1) (by omega) (by omega)]
  simp [mkRecord]

/-- Pre-filling the index window `k+1 .. k+n` recovers the input suffix
from position `k`. -/
theorem range'_map_prefill (inputs : List TradeInput) :
    ∀ (n k : ℕ), k + n = inputs.length →
      (List.range' (k + 1) n).map (prefillInput (buildTrades inputs)) = inputs.drop k := by
  intro n
  induction n with
  | zero =>
    intro k hk
    rw [List.range']
    rw [List.drop_of_length_le (by omega)]
    rfl
  | succ n ih =>
    intro k hk
    rw [List.range'_succ, List.map_cons]
    have hk2 : k < inputs.length := by omega
    rw [prefillInput_buildTrades inputs k hk2, ih (k + 1) (by omega)]
    rw [List.getD_eq_getElem _ _ hk2]
    exact (List.drop_eq_getElem_cons hk2).symm

/-- Reconstructing the inputs from the stored `trades` list is the
identity. -/
theorem reload_buildTrades (inputs : List TradeInput) :
    reload (buildTrades inputs) = inputs := by
  unfold reload
  have hlen : (buildTrades inputs).length = inputs.length := by
    simp [buildTrades, ascRecords, length_ascRecordsFrom]
  rw [hlen]
  have h := range'_map_prefill inputs inputs.length 0 (by omega)
  simpa using h

/-! Claim theorems. -/

/-- Claim C1, counterexample: the engine's fold does NOT process trades in
descending index order.  On the two-trade example the engine's final
portfolio value (50) differs from the value the spec's descending fold
produces (-200), because the stored list is already in descending order
and `reversed(trades)` therefore walks it ascending. -/
theorem c1_counterexample :
    (engineFold ex2Inputs).portfolio_value ≠ (descendingFold_spec ex2Inputs).portfolio_value := by
  have h1 : engineFold ex2Inputs = ⟨50, 50, 100, true⟩ := by
    norm_num [engineFold, runFold, buildTrades, ascRecords, ascRecordsFrom, mkRecord,
      foldStep, initState, net_result, ex2Inputs]
  have h2 : descendingFold_spec ex2Inputs = ⟨-200, -200, 50, true⟩ := by
    norm_num [descendingFold_spec, ascRecords, ascRecordsFrom, mkRecord, foldStep,
      initState, net_result, ex2Inputs]
  rw [h1, h2]
  norm_num

/-- Claim C1, amended: the portfolio valuation fold processes the trade
records in ASCENDING index order — it folds over the ascending record
list `1, 2, ..., N`, so the trade with index 1 (the earliest) seeds the
fold and higher indices are folded in afterward, up to index `N`. -/
theorem c1_amended (inputs : List TradeInput) :
    engineFold inputs = (ascRecords inputs).foldl foldStep initState ∧
    (ascRecords inputs).map (fun r => r.trade) = List.range' 1 inputs.length := by
  constructor
  · simp [engineFold, runFold, buildTrades]
  · exact ascRecordsFrom_map_trade 1 inputs

/-- Claim C2, counterexample: on the two-trade input (trade #1 buy 200,
sell 0, fee 0; trade #2 buy 100, sell 150, fee 0) the engine does NOT
produce `totalAddedCapital = 50` and `portfolioValue = -200`. -/
theorem c2_counterexample :
    ¬(total_added_capital (buildTrades ex2Inputs) = 50 ∧
      portfolio_value (buildTrades ex2Inputs) = -200) := by
  have h1 : total_added_capital (buildTrades ex2Inputs) = 100 := by
    norm_num [total_added_capital, runFold, buildTrades, ascRecords, ascRecordsFrom,
      mkRecord, foldStep, initState, net_result, ex2Inputs]
  intro h
  rw [h1] at h
  norm_num at h

/-- Claim C2, amended: on that input the fold first processes trade #1
(seeding `prevPortfolio = 200`, `portfolioValue = 200 + (-200) = 0`),
then trade #2 triggers `addedCapital = 100 - 0 = 100` and yields
`portfolioValue = 0 - 100 + 50 + 100 = 50`; so `totalAddedCapital = 100`
and `portfolioValue = 50`. -/
theorem c2_amended :
    total_added_capital (buildTrades ex2Inputs) = 100 ∧
    portfolio_value (buildTrades ex2Inputs) = 50 := by
  norm_num [total_added_capital, portfolio_value, runFold, buildTrades, ascRecords,
    ascRecordsFrom, mkRecord, foldStep, initState, net_result, ex2Inputs]

/-- Claim C3, counterexample: `totalROI` is NOT computed from the
highest-index trade's buy price.  On the two-trade example the engine's
total ROI (-250/3, using trade #1's buy price 200) differs from the
value obtained with the highest-index trade's buy price (-75). -/
theorem c3_counterexample :
    total_roi (buildTrades ex2Inputs) ≠ total_roi_highest_spec ex2Inputs := by
  have h1 : total_roi (buildTrades ex2Inputs) = -250 / 3 := by
    norm_num [total_roi, effective_invested, lastBuy, portfolio_value, total_added_capital,
      runFold, buildTrades, ascRecords, ascRecordsFrom, mkRecord, foldStep, initState,
      net_result, ex2Inputs]
  have h2 : total_roi_highest_spec ex2Inputs = -75 := by
    norm_num [total_roi_highest_spec, portfolio_value, total_added_capital, runFold,
      buildTrades, ascRecords, ascRecordsFrom, mkRecord, foldStep, initState,
      net_result, ex2Inputs]
  rw [h1, h2]
  norm_num

/-- Claim C3, amended: for every non-empty trade list,
`totalROI = (portfolioValue / effectiveInvested - 1) * 100` where
`effectiveInvested = firstTrade.buyPrice + totalAddedCapital` and
`firstTrade` is the trade with index 1 (the LOWEST index, the last
element of the stored list); `totalROI = 0` when
`effectiveInvested ≤ 0`. -/
theorem c3_amended (t : TradeInput) (ts : List TradeInput) :
    total_roi (buildTrades (t :: ts)) =
      if t.buy + total_added_capital (buildTrades (t :: ts)) > 0 then
        (portfolio_value (buildTrades (t :: ts)) /
            (t.buy + total_added_capital (buildTrades (t :: ts))) - 1) * 100
      else 0 := by
  rw [total_roi, effective_invested, lastBuy_buildTrades_cons]

/-- Claim C4: filtering by a tag never includes a trade of a different
tag, and the three tag subsets (`default`, `red`, `blue`) partition the
list — their sizes sum to `N`. -/
theorem c4_partition (trades : List TradeRecord) :
    (∀ c : Color, ∀ t ∈ filterColor c trades, t.color = c) ∧
    (filterColor Color.default trades).length + (filterColor Color.red trades).length +
        (filterColor Color.blue trades).length = trades.length := by
  constructor
  · intro c t ht
    have h := List.mem_filter.mp ht
    exact of_decide_eq_true h.2
  · induction trades with
    | nil => rfl
    | cons t ts ih =>
      cases h : t.color <;> simp [filterColor, List.filter_cons, h] at ih ⊢ <;> omega

/-- Claim C4, witness: the partition property instantiated on a concrete
one-element red list. -/
theorem c4_witness :
    (mkRecord 1 ⟨1, 2, 0, Color.red⟩).color = Color.red ∧
    (filterColor Color.default [mkRecord 1 ⟨1, 2, 0, Color.red⟩]).length +
        (filterColor Color.red [mkRecord 1 ⟨1, 2, 0, Color.red⟩]).length +
        (filterColor Color.blue [mkRecord 1 ⟨1, 2, 0, Color.red⟩]).length =
      ([mkRecord 1 ⟨1, 2, 0, Color.red⟩] : List TradeRecord).length := by
  constructor
  · exact (c4_partition [mkRecord 1 ⟨1, 2, 0, Color.red⟩]).1 Color.red
      (mkRecord 1 ⟨1, 2, 0, Color.red⟩) (by simp [filterColor, mkRecord])
  · exact (c4_partition [mkRecord 1 ⟨1, 2, 0, Color.red⟩]).2

/-- Claim C5: per-trade metrics are
`profit = (sell - buy) - sell * fee / 100`,
`totalReturn = sell - sell * fee / 100`,
`roi = profit / buy * 100` when `buy > 0`, and `roi = 0` when `buy = 0`
regardless of the other fields. -/
theorem c5_pertrade (t : TradeInput) :
    profit t = (t.sell - t.buy) - t.sell * t.fee / 100 ∧
    total_return t = t.sell - t.sell * t.fee / 100 ∧
    (t.buy > 0 → roi t = profit t / t.buy * 100) ∧
    (t.buy = 0 → roi t = 0) := by
  refine ⟨rfl, rfl, fun h => ?_, fun h => ?_⟩
  · rw [roi, if_pos h]
  · rw [roi, if_neg]
    rw [h]
    exact lt_irrefl 0

/-- Claim C5, witness: a zero-buy trade with nonzero sell and fee has
ROI 0, and a positive-buy trade takes the ratio formula. -/
theorem c5_witness :
    roi ⟨0, 150, 2, Color.red⟩ = 0 ∧
    roi ⟨100, 150, 1, Color.default⟩ = profit ⟨100, 150, 1, Color.default⟩ / 100 * 100 := by
  constructor
  · exact (c5_pertrade ⟨0, 150, 2, Color.red⟩).2.2.2 rfl
  · exact (c5_pertrade ⟨100, 150, 1, Color.default⟩).2.2.1 (by norm_num)

/-- Claim C6: snapshot round-trip.  Encoding the stored trades and
decoding the snapshot returns the records unchanged; re-deriving the
inputs through the index-keyed pre-fill reproduces the per-trade input
fields exactly; hence re-running the engine yields the same stored
records and identical headline totals. -/
theorem c6_roundtrip (inputs : List TradeInput) :
    decodeTrades (encodeTrades (buildTrades inputs)) = some (buildTrades inputs) ∧
    reload (buildTrades inputs) = inputs ∧
    buildTrades (reload (buildTrades inputs)) = buildTrades inputs ∧
    total_profit (buildTrades (reload (buildTrades inputs))) =
      total_profit (buildTrades inputs) ∧
    total_roi (buildTrades (reload (buildTrades inputs))) =
      total_roi (buildTrades inputs) ∧
    portfolio_value (buildTrades (reload (buildTrades inputs))) =
      portfolio_value (buildTrades inputs) := by
  have h1 : decodeTrades (encodeTrades (buildTrades inputs)) = some (buildTrades inputs) := by
    rw [encodeTrades, decodeTrades]
    exact decodeList_encode _
  have h2 := reload_buildTrades inputs
  exact ⟨h1, h2, by rw [h2], by rw [h2], by rw [h2], by rw [h2]⟩

/-- Claim C7, counterexample: a snapshot that parses as JSON but misses
the required fields (here `[{}]`) is a deserialization failure in the
claim's sense, yet the loader DOES modify session state: it stores the
malformed data into `loaded_trades`. -/
theorem c7_counterexample :
    snapshotWellFormed (JValue.jarr [JValue.jobj []]) = false ∧
    (load_trades ⟨none, []⟩ (some (JValue.jarr [JValue.jobj []]))).1.loaded_trades ≠
      (⟨none, []⟩ : SessionState).loaded_trades := by
  constructor
  · rfl
  · simp [load_trades]

/-- Claim C7, amended: only a JSON PARSE failure is reported as a
non-fatal error with the session state left unchanged; any snapshot that
parses — well-formed or not — is stored into `loaded_trades` and reported
as a success, so missing-field failures surface only later, after state
was already modified. -/
theorem c7_amended (st : SessionState) :
    (load_trades st none).1 = st ∧
    (load_trades st none).2 = false ∧
    ∀ j : JValue, (load_trades st (some j)).1.loaded_trades = some j ∧
      (load_trades st (some j)).2 = true := by
  exact ⟨rfl, rfl, fun j => ⟨rfl, rfl⟩⟩

/-- Claim C8: on the empty trade list every engine output is 0. -/
theorem c8_empty :
    total_profit ([] : List TradeRecord) = 0 ∧
    total_roi ([] : List TradeRecord) = 0 ∧
    portfolio_value ([] : List TradeRecord) = 0 ∧
    total_added_capital ([] : List TradeRecord) = 0 := by
  norm_num [total_profit, total_roi, effective_invested, lastBuy, portfolio_value,
    total_added_capital, runFold, initState]

/-- Claim C9: for every tag subset, the charted "Portfolio Value Growth"
series is the running sum of `buy + profit` over the subset in ascending
index order: its `k`-th value equals the sum of `buy + profit` over the
first `k + 1` subset trades; the charted order is sorted ascending by
index and is a permutation of the subset. -/
theorem c9_growth (subset : List TradeRecord) :
    (∀ k, k < (sortByTrade subset).length →
      (chartSeries subset).getD k 0 =
        (((sortByTrade subset).take (k + 1)).map (fun t => t.buy + t.profit)).sum) ∧
    List.Pairwise (fun a b => a.trade ≤ b.trade) (sortByTrade subset) ∧
    (sortByTrade subset).Perm subset := by
  refine ⟨fun k hk => ?_, sorted_sortByTrade subset, perm_sortByTrade subset⟩
  have h := cumsum_zip_getD (sortByTrade subset) 0 0 k hk
  simpa [chartSeries, portfolio_growth, cumsum] using h

/-- Claim C9, witness: the running-sum property instantiated on a concrete
one-element subset at position 0. -/
theorem c9_witness :
    (chartSeries [mkRecord 1 ⟨100, 150, 0, Color.default⟩]).getD 0 0 =
      (((sortByTrade [mkRecord 1 ⟨100, 150, 0, Color.default⟩]).take 1).map
        (fun t => t.buy + t.profit)).sum :=
  (c9_growth [mkRecord 1 ⟨100, 150, 0, Color.default⟩]).1 0
    (by norm_num [sortByTrade, insertByTrade])

/-- Claim C10: at every non-seed fold step that detects a capital
injection (`buy > prevPortfolio`), the updated portfolio value equals
exactly that trade's net result — `prevPortfolio - buy + addedCapital`
cancels to 0, so the value accumulated before the step has no effect. -/
theorem c10_injection (s : FoldState) (t : TradeRecord)
    (h1 : s.seeded = true) (h2 : t.buy > s.prev_portfolio) :
    (foldStep s t).portfolio_value = net_result t := by
  simp [foldStep, h1, h2]
  ring

/-- Claim C10, witness: the injection step instantiated on a concrete
already-seeded state with `prevPortfolio = 3` and a trade buying at 10. -/
theorem c10_witness :
    (foldStep ⟨5, 3, 0, true⟩ (mkRecord 2 ⟨10, 0, 0, Color.default⟩)).portfolio_value =
      net_result (mkRecord 2 ⟨10, 0, 0, Color.default⟩) :=
  c10_injection ⟨5, 3, 0, true⟩ (mkRecord 2 ⟨10, 0, 0, Color.default⟩) rfl
    (by norm_num [mkRecord])

end TradeTracker
